import Mathlib

/-!
Verification of the offer-lifecycle core of a Telegram P2P Bitcoin shop.

The development shallowly embeds the Go source: the SQLite-backed store
(the `db` package), the lifecycle operations of the bot (the `bot`
package), and the satoshi conversion performed in `createOffer`.  Machine
`float64` arithmetic is modelled exactly: a positive rational, given as a
numerator/denominator pair of naturals, is rounded to the nearest IEEE-754
binary64 value (round to nearest, ties to even) in the normal range; all
quantities appearing here are far inside that range.
-/

/-! ## Binary64 rounding model (positive normal range) -/

/-- Bit length of a natural number, driven by an explicit fuel argument so
that the recursion is structural. -/
def bitlenAux : Nat → Nat → Nat
  | 0, _ => 0
  | fuel + 1, n => if n = 0 then 0 else bitlenAux fuel (n / 2) + 1

/-- Bit length of a natural number: for positive `n` it is `⌊log₂ n⌋ + 1`. -/
def bitlen (n : Nat) : Nat := bitlenAux n n

/-- Decides `2 ^ e ≤ n / d` for naturals `n`, `d` using only natural
arithmetic. -/
def twoPowLeFrac (e : Int) (n d : Nat) : Bool :=
  if 0 ≤ e then d * 2 ^ e.toNat ≤ n else d ≤ n * 2 ^ (-e).toNat

/-- Floor of the base-two logarithm of the positive fraction `n / d`. -/
def ilog2Frac (n d : Nat) : Int :=
  let e0 : Int := (bitlen n : Int) - (bitlen d : Int)
  if twoPowLeFrac e0 n d then e0 else e0 - 1

/-- Rounds the nonnegative fraction `n / d` to the nearest natural number,
ties to even. -/
def roundHalfEvenFrac (n d : Nat) : Nat :=
  let f := n / d
  let r := n % d
  if 2 * r < d then f
  else if d < 2 * r then f + 1
  else if f % 2 = 0 then f else f + 1

/-- Rounds the positive fraction `n / d` to the nearest binary64 value,
returned as a dyadic pair `(m, e)` whose value is `m * 2 ^ e`. -/
def dblOfFracPos (n d : Nat) : Nat × Int :=
  let e : Int := ilog2Frac n d - 52
  let p : Nat × Nat := if 0 ≤ e then (n, d * 2 ^ e.toNat) else (n * 2 ^ (-e).toNat, d)
  (roundHalfEvenFrac p.1 p.2, e)

/-- The dyadic value `m * 2 ^ e` as a numerator/denominator pair. -/
def fracOfDyadic (m : Nat) (e : Int) : Nat × Nat :=
  if 0 ≤ e then (m * 2 ^ e.toNat, 1) else (m, 2 ^ (-e).toNat)

/-- Truncation toward zero of the nonnegative dyadic value `m * 2 ^ e`, as
performed by a Go conversion such as `int64(x)` on a nonnegative float. -/
def truncDyadicPos (m : Nat) (e : Int) : Nat :=
  if 0 ≤ e then m * 2 ^ e.toNat else m / 2 ^ (-e).toNat

/-- The satoshi count computed by `int64(amountBTC * 100_000_000)` in
`createOffer` (`bot.go`), where `amountBTC` is the float64 of exact value
`n / d`: the exact product with `10^8` is rounded once to binary64 by the
float multiplication, then truncated toward zero. -/
def int64SatsPos (n d : Nat) : Nat :=
  let md := dblOfFracPos (n * 100000000) d
  truncDyadicPos md.1 md.2

/-- The satoshi count produced by the full code path for a positive decimal
amount `n / d` entered by the user: `strconv.ParseFloat` rounds it to the
nearest binary64, then `createOffer` multiplies by `10^8` in float64 and
truncates (`int64SatsPos`). -/
def goSatsPos (n d : Nat) : Nat :=
  let md := dblOfFracPos n d
  let p := fracOfDyadic md.1 md.2
  int64SatsPos p.1 p.2

/-- The exact fixed-point satoshi count for the positive decimal amount
`n / d`: multiply by `10^8` and truncate toward zero. -/
def exactSatsPos (n d : Nat) : Nat := n * 100000000 / d


/-! ## Data model (`models` package and SQLite schema in `db` package) -/

/-- Offer status, mirroring the `OfferStatus` string constants of the
`models` package. -/
inductive OfferStatus where
  | pending
  | paid
  | completed
  | cancelled
deriving DecidableEq, BEq

/-- A row of the `users` table: `user_id` primary key, display handle,
registration timestamp. -/
structure UserRow where
  userId : Int
  username : String
  createdAt : Nat
deriving DecidableEq

/-- A row of the `offers` table (the second schema, with a status column):
autoincrement id, owner id, terms, invoice binding, status, timestamps. -/
structure OfferRow where
  id : Nat
  userId : Int
  amountBTC : ℚ
  priceUSD : ℚ
  invoiceID : String
  invoiceLink : String
  status : OfferStatus
  createdAt : Nat
  updatedAt : Nat
deriving DecidableEq

/-- `models.Offer`: an offer row joined with the owner handle, as returned
by `GetOffer` and `GetAllOffers`. -/
structure Offer where
  id : Nat
  userId : Int
  username : String
  amountBTC : ℚ
  priceUSD : ℚ
  invoiceID : String
  invoiceLink : String
  status : OfferStatus
  createdAt : Nat
  updatedAt : Nat
deriving DecidableEq

/-- The SQLite database state: both tables plus the autoincrement counter
of the `offers` table.  Rows are kept in insertion order. -/
structure Database where
  users : List UserRow
  offers : List OfferRow
  nextId : Nat
deriving DecidableEq

/-- Joins an offer row with the owner handle. -/
def OfferRow.withName (r : OfferRow) (uname : String) : Offer :=
  ⟨r.id, r.userId, uname, r.amountBTC, r.priceUSD, r.invoiceID, r.invoiceLink,
   r.status, r.createdAt, r.updatedAt⟩

/-! ## Store operations (`db` package) -/

/-- Errors reported by the store.  The Go store only fails when the SQL
layer itself fails; that infrastructure failure is outside this model, so
no operation below ever returns an error value. -/
inductive DBError where
  | execFailed
deriving DecidableEq

/-- `RegisterUser`: `INSERT OR IGNORE INTO users` — inserts the user if the
primary key is absent, otherwise leaves the table unchanged. -/
def RegisterUser (db : Database) (userID : Int) (username : String) (now : Nat) : Database :=
  if db.users.any (fun u => u.userId = userID) then db
  else { db with users := db.users ++ [⟨userID, username, now⟩] }

/-- `UserExists`: `SELECT COUNT(*) FROM users WHERE user_id = ?` is
positive. -/
def UserExists (db : Database) (userID : Int) : Bool :=
  db.users.any (fun u => u.userId = userID)

/-- `CreateOffer`: inserts a new offer row with status `pending` and both
timestamps set to now; the id is assigned by autoincrement. -/
def CreateOffer (db : Database) (userID : Int) (amountBTC priceUSD : ℚ)
    (invoiceID invoiceLink : String) (now : Nat) : Database :=
  { db with
    offers := db.offers ++
      [⟨db.nextId, userID, amountBTC, priceUSD, invoiceID, invoiceLink,
        OfferStatus.pending, now, now⟩]
    nextId := db.nextId + 1 }

/-- Comparison used to model `ORDER BY created_at DESC` (most recent
first). -/
def moreRecent (a b : OfferRow) : Prop := b.createdAt ≤ a.createdAt

instance : DecidableRel moreRecent := fun a b => Nat.decLe b.createdAt a.createdAt

/-- `GetUserOffers`: the rows of one owner, most recent first (no join, so
no username is resolved). -/
def GetUserOffers (db : Database) (userID : Int) : List OfferRow :=
  (db.offers.filter (fun o => o.userId = userID)).insertionSort moreRecent

/-- `GetOffer`: the row with the given id joined with the owner handle;
`none` models the `offer not found` error (also produced when the join
finds no matching user). -/
def GetOffer (db : Database) (offerID : Nat) : Option Offer := do
  let r ← db.offers.find? (fun o => o.id = offerID)
  let u ← db.users.find? (fun u => u.userId = r.userId)
  pure (r.withName u.username)

/-- The bare row update performed by the SQL statement
`UPDATE offers SET status = ?, updated_at = ? WHERE id = ?`. -/
def updateRows (db : Database) (offerID : Nat) (status : OfferStatus) (now : Nat) : Database :=
  { db with
    offers := db.offers.map fun r =>
      if r.id = offerID then { r with status := status, updatedAt := now } else r }

/-- `UpdateOfferStatus`: executes the bare update; the Go code never
inspects the number of affected rows, so the call succeeds even when no
row has the given id. -/
def UpdateOfferStatus (db : Database) (offerID : Nat) (status : OfferStatus) (now : Nat) :
    Except DBError Database :=
  Except.ok (updateRows db offerID status now)

/-- Comparison used to model `ORDER BY o.created_at DESC` on joined
offers. -/
def moreRecentJ (a b : Offer) : Prop := b.createdAt ≤ a.createdAt

instance : DecidableRel moreRecentJ := fun a b => Nat.decLe b.createdAt a.createdAt

/-- `GetAllOffers`: all offer rows joined with the owner handle, most
recent first, truncated to `limit` rows when `limit > 0`. -/
def GetAllOffers (db : Database) (limit : Int) : List Offer :=
  let joined := db.offers.filterMap fun r =>
    (db.users.find? (fun u => u.userId = r.userId)).map fun u => r.withName u.username
  let sorted := joined.insertionSort moreRecentJ
  if 0 < limit then sorted.take limit.toNat else sorted

/-! ## Payment backend interface (`btcpay` package, as seen by the bot) -/

/-- Result of `CheckInvoiceStatus`: either the settled flag, or a
network/protocol failure. -/
def SettleOracle : Type := String → Except Unit Bool

/-- Result of `CreateInvoice`: either `(invoiceID, invoiceLink)`, or a
failure. -/
def IssueOracle : Type := Int → Except Unit (String × String)

/-! ## Bot lifecycle operations (`bot` package, final version) -/

/-- Errors surfaced by the lifecycle handlers. -/
inductive BotError where
  | notFound
  | unauthorized
  | invalidState
deriving DecidableEq

/-- The reconciliation step `listOffers` performs on one fetched offer row
(`bot.go`): completed and cancelled offers are skipped; a pending offer
whose invoice the backend reports settled is written to `paid`; any
backend failure is logged and ignored, leaving the row untouched. -/
def reconcileRow (oracle : SettleOracle) (now : Nat) (db : Database) (o : OfferRow) : Database :=
  if o.status = OfferStatus.completed ∨ o.status = OfferStatus.cancelled then db
  else if o.status = OfferStatus.pending then
    match oracle o.invoiceID with
    | Except.ok true => updateRows db o.id OfferStatus.paid now
    | _ => db
  else db

/-- `listOffers`: fetches the requester's offers and runs the opportunistic
reconciliation over each of them; reconciliation failures are soft, so the
handler returns successfully with the updated store. -/
def listOffers (db : Database) (userID : Int) (oracle : SettleOracle) (now : Nat) :
    Except DBError Database :=
  Except.ok ((GetUserOffers db userID).foldl (reconcileRow oracle now) db)

/-- `refreshStatus` of the specification, as realised by the list-driven
reconciliation: acts only on a `pending` offer, moving it to `paid` when
the backend reports the invoice settled; otherwise (including on a backend
failure) the store is unchanged. -/
def refreshStatus (db : Database) (offerID : Nat) (oracle : SettleOracle) (now : Nat) : Database :=
  match db.offers.find? (fun o => o.id = offerID) with
  | none => db
  | some o => reconcileRow oracle now db o

/-- `showMarketplace`: fetches the 20 most recent offers (joined with owner
handles) and surfaces exactly those whose stored status is `pending`; the
store is not consulted for settlement and not modified. -/
def showMarketplace (db : Database) : List Offer :=
  (GetAllOffers db 20).filter (fun o => o.status = OfferStatus.pending)

/-- Modelled from the spec: the marketplace listing the specification
describes, which first performs `refreshStatus` on each fetched offer that
is `pending` and only then filters, returning the offers still `pending`
after the refresh together with the refreshed store.  (The code under
`src/` does not perform the refresh; this definition exists to compare the
two.) -/
def listMarketplaceSpec (db : Database) (oracle : SettleOracle) (now : Nat) :
    List Offer × Database :=
  let fetched := GetAllOffers db 20
  let db2 := fetched.foldl (fun d o => refreshStatus d o.id oracle now) db
  ((GetAllOffers db2 20).filter (fun o => o.status = OfferStatus.pending), db2)

/-- `confirmPayment`: looks the offer up, rejects a non-owner, rejects any
status other than `paid`, and otherwise writes `completed`. -/
def confirmPayment (db : Database) (offerID : Nat) (requester : Int) (now : Nat) :
    Except BotError Database :=
  match GetOffer db offerID with
  | none => Except.error BotError.notFound
  | some offer =>
    if offer.userId ≠ requester then Except.error BotError.unauthorized
    else if offer.status ≠ OfferStatus.paid then Except.error BotError.invalidState
    else Except.ok (updateRows db offerID OfferStatus.completed now)

/-- `cancelOffer`: looks the offer up, rejects a non-owner, rejects any
status other than `pending`, and otherwise writes `cancelled`. -/
def cancelOffer (db : Database) (offerID : Nat) (requester : Int) (now : Nat) :
    Except BotError Database :=
  match GetOffer db offerID with
  | none => Except.error BotError.notFound
  | some offer =>
    if offer.userId ≠ requester then Except.error BotError.unauthorized
    else if offer.status ≠ OfferStatus.pending then Except.error BotError.invalidState
    else Except.ok (updateRows db offerID OfferStatus.cancelled now)

/-- The store as left behind by a `confirmPayment` request: unchanged when
the handler rejects the request. -/
def runConfirm (db : Database) (offerID : Nat) (requester : Int) (now : Nat) : Database :=
  match confirmPayment db offerID requester now with
  | Except.ok d => d
  | Except.error _ => db

/-- The store as left behind by a `cancelOffer` request: unchanged when the
handler rejects the request. -/
def runCancel (db : Database) (offerID : Nat) (requester : Int) (now : Nat) : Database :=
  match cancelOffer db offerID requester now with
  | Except.ok d => d
  | Except.error _ => db

/-! ## Offer creation (`/sell` handler plus `bot.createOffer`) -/

/-- Outcome of a `/sell` request. -/
inductive SellOutcome where
  | invalidAmount
  | invalidPrice
  | notRegistered
  | backendFailed
  | created
deriving DecidableEq

/-- Result of a `/sell` request: the outcome, the resulting store, and
whether invoice issuance was requested from the payment backend. -/
structure SellResult where
  outcome : SellOutcome
  db : Database
  invoiceRequested : Bool
deriving DecidableEq

/-- The `/sell` command path on already-parsed numeric arguments: the
handler rejects a non-positive amount, then a non-positive price;
`createOffer` then rejects an unregistered sender, converts the amount to
satoshis, requests an invoice (aborting with no store write when issuance
fails), and finally persists the offer row. -/
def sellHandler (db : Database) (issue : IssueOracle) (sender : Int)
    (amountBTC priceUSD : ℚ) (now : Nat) : SellResult :=
  if amountBTC ≤ 0 then ⟨SellOutcome.invalidAmount, db, false⟩
  else if priceUSD ≤ 0 then ⟨SellOutcome.invalidPrice, db, false⟩
  else if ¬ UserExists db sender then ⟨SellOutcome.notRegistered, db, false⟩
  else
    match issue ((int64SatsPos amountBTC.num.natAbs amountBTC.den : Nat) : Int) with
    | Except.error _ => ⟨SellOutcome.backendFailed, db, true⟩
    | Except.ok p =>
        ⟨SellOutcome.created, CreateOffer db sender amountBTC priceUSD p.1 p.2 now, true⟩

/-! ## Lifecycle operation alphabet (for the transition-system claims) -/

/-- One lifecycle operation against a fixed offer id: a list-driven
reconciliation (`refreshStatus`) under some backend oracle, an owner
confirmation attempt, or a cancellation attempt. -/
inductive LifeOp where
  | refresh (oracle : SettleOracle) (now : Nat)
  | confirm (requester : Int) (now : Nat)
  | cancel (requester : Int) (now : Nat)

/-- Applies one lifecycle operation to the store; rejected operations leave
the store unchanged. -/
def applyOp (offerID : Nat) (db : Database) : LifeOp → Database
  | LifeOp.refresh oracle now => refreshStatus db offerID oracle now
  | LifeOp.confirm requester now => runConfirm db offerID requester now
  | LifeOp.cancel requester now => runCancel db offerID requester now

/-- The stored status of the offer with the given id (of the first row with
that id, when several exist). -/
def offerStatus (db : Database) (offerID : Nat) : Option OfferStatus :=
  (db.offers.find? (fun o => o.id = offerID)).map OfferRow.status

/-- The stored update timestamp of the offer with the given id. -/
def offerUpdatedAt (db : Database) (offerID : Nat) : Option Nat :=
  (db.offers.find? (fun o => o.id = offerID)).map OfferRow.updatedAt

/-! ## Concrete fixtures used as witnesses -/

/-- A registered user. -/
def aliceRow : UserRow := ⟨1, "alice", 0⟩

/-- Offer number 1 of user 1, still pending. -/
def pendRow : OfferRow := ⟨1, 1, 1, 500, "inv1", "link1", OfferStatus.pending, 3, 3⟩

/-- Offer number 1 of user 1, paid. -/
def paidRow : OfferRow := ⟨1, 1, 1, 500, "inv1", "link1", OfferStatus.paid, 3, 4⟩

/-- Offer number 1 of user 1, completed. -/
def doneRow : OfferRow := ⟨1, 1, 1, 500, "inv1", "link1", OfferStatus.completed, 3, 5⟩

/-- A store with one registered user and no offers. -/
def dbEmpty : Database := ⟨[aliceRow], [], 1⟩

/-- A store with one pending offer. -/
def dbPend : Database := ⟨[aliceRow], [pendRow], 2⟩

/-- A store with one paid offer. -/
def dbPaid : Database := ⟨[aliceRow], [paidRow], 2⟩

/-- A store with one completed offer. -/
def dbDone : Database := ⟨[aliceRow], [doneRow], 2⟩

/-- A backend that reports every invoice settled. -/
def oracleSettled : SettleOracle := fun _ => Except.ok true

/-- A backend whose settlement check always fails. -/
def oracleDown : SettleOracle := fun _ => Except.error ()

/-- A payment backend that issues every invoice. -/
def issueOk : IssueOracle := fun _ => Except.ok ("inv1", "link1")

/-- A payment backend whose invoice issuance always fails. -/
def issueDown : IssueOracle := fun _ => Except.error ()

/-! ## Helper lemmas -/

/-- The row update of `updateRows` preserves ids, so lookup by id commutes
with it. -/
theorem find?_updateRows_self (l : List OfferRow) (i : Nat) (st : OfferStatus) (now : Nat) :
    (l.map fun r => if r.id = i then { r with status := st, updatedAt := now } else r).find?
        (fun o => o.id = i)
      = (l.find? (fun o => o.id = i)).map
          (fun r => { r with status := st, updatedAt := now }) := by
  induction l with
  | nil => rfl
  | cons a l ih =>
    by_cases h : a.id = i
    · simp [List.find?_cons, h]
    · simp [List.find?_cons, h, ih]

/-- Lookup of a different id is unaffected by `updateRows`. -/
theorem find?_updateRows_other (l : List OfferRow) (i j : Nat) (st : OfferStatus) (now : Nat)
    (hij : j ≠ i) :
    (l.map fun r => if r.id = i then { r with status := st, updatedAt := now } else r).find?
        (fun o => o.id = j)
      = l.find? (fun o => o.id = j) := by
  induction l with
  | nil => rfl
  | cons a l ih =>
    by_cases h : a.id = i
    · simp [List.find?_cons, h, hij.symm, ih]
    · by_cases h2 : a.id = j
      · simp [List.find?_cons, h, h2, hij]
      · simp [List.find?_cons, h, h2, ih]

/-- Effect of `updateRows` on the stored status of the targeted id. -/
theorem offerStatus_updateRows_self (db : Database) (i : Nat) (st : OfferStatus) (now : Nat) :
    offerStatus (updateRows db i st now) i = (offerStatus db i).map (fun _ => st) := by
  unfold offerStatus updateRows
  rw [find?_updateRows_self]
  cases db.offers.find? (fun o => o.id = i) <;> rfl

/-- `updateRows` leaves the status of every other id unchanged. -/
theorem offerStatus_updateRows_other (db : Database) (i j : Nat) (st : OfferStatus) (now : Nat)
    (hij : j ≠ i) :
    offerStatus (updateRows db i st now) j = offerStatus db j := by
  unfold offerStatus updateRows
  rw [find?_updateRows_other _ _ _ _ _ hij]

/-- `GetOffer` unfolded to explicit option combinators. -/
theorem GetOffer_eq (db : Database) (offerID : Nat) :
    GetOffer db offerID
      = (db.offers.find? (fun o => o.id = offerID)).bind
          (fun r => (db.users.find? (fun u => u.userId = r.userId)).bind
            (fun u => some (r.withName u.username))) := by
  unfold GetOffer
  cases db.offers.find? (fun o => o.id = offerID) with
  | none => rfl
  | some r =>
    cases db.users.find? (fun u => u.userId = r.userId) <;> rfl

/-- An offer returned by `GetOffer` carries the status and owner of the
first stored row with its id. -/
theorem GetOffer_of_find? (db : Database) (offerID : Nat) (offer : Offer)
    (h : GetOffer db offerID = some offer) :
    ∃ r, db.offers.find? (fun o => o.id = offerID) = some r ∧
         offer.status = r.status ∧ offer.userId = r.userId := by
  rw [GetOffer_eq] at h
  cases hr : db.offers.find? (fun o => o.id = offerID) with
  | none => rw [hr, Option.none_bind] at h; exact absurd h (by simp)
  | some r =>
    rw [hr, Option.some_bind] at h
    cases hu : db.users.find? (fun u => u.userId = r.userId) with
    | none => rw [hu, Option.none_bind] at h; exact absurd h (by simp)
    | some u =>
      rw [hu, Option.some_bind] at h
      simp only [Option.some.injEq] at h
      exact ⟨r, rfl, by rw [← h]; rfl, by rw [← h]; rfl⟩

/-- `confirmPayment` on a missing offer (or an offer whose owner row is
missing from the join) reports `notFound`. -/
theorem confirmPayment_none (db : Database) (i : Nat) (req : Int) (now : Nat)
    (h : GetOffer db i = none) :
    confirmPayment db i req now = Except.error BotError.notFound := by
  unfold confirmPayment; rw [h]

/-- `confirmPayment` by a non-owner reports `unauthorized`. -/
theorem confirmPayment_unauth (db : Database) (i : Nat) (req : Int) (now : Nat) (offer : Offer)
    (h : GetOffer db i = some offer) (h2 : offer.userId ≠ req) :
    confirmPayment db i req now = Except.error BotError.unauthorized := by
  unfold confirmPayment; simp [h, h2]

/-- `confirmPayment` by the owner on a non-`paid` offer reports
`invalidState`. -/
theorem confirmPayment_invalid (db : Database) (i : Nat) (req : Int) (now : Nat) (offer : Offer)
    (h : GetOffer db i = some offer) (hown : offer.userId = req)
    (hst : offer.status ≠ OfferStatus.paid) :
    confirmPayment db i req now = Except.error BotError.invalidState := by
  unfold confirmPayment; simp [h, hown, hst]

/-- `confirmPayment` by the owner on a `paid` offer writes `completed`. -/
theorem confirmPayment_ok (db : Database) (i : Nat) (req : Int) (now : Nat) (offer : Offer)
    (h : GetOffer db i = some offer) (hown : offer.userId = req)
    (hst : offer.status = OfferStatus.paid) :
    confirmPayment db i req now = Except.ok (updateRows db i OfferStatus.completed now) := by
  unfold confirmPayment; simp [h, hown, hst]

/-- `cancelOffer` on a missing offer reports `notFound`. -/
theorem cancelOffer_none (db : Database) (i : Nat) (req : Int) (now : Nat)
    (h : GetOffer db i = none) :
    cancelOffer db i req now = Except.error BotError.notFound := by
  unfold cancelOffer; rw [h]

/-- `cancelOffer` by a non-owner reports `unauthorized`. -/
theorem cancelOffer_unauth (db : Database) (i : Nat) (req : Int) (now : Nat) (offer : Offer)
    (h : GetOffer db i = some offer) (h2 : offer.userId ≠ req) :
    cancelOffer db i req now = Except.error BotError.unauthorized := by
  unfold cancelOffer; simp [h, h2]

/-- `cancelOffer` by the owner on a non-`pending` offer reports
`invalidState`. -/
theorem cancelOffer_invalid (db : Database) (i : Nat) (req : Int) (now : Nat) (offer : Offer)
    (h : GetOffer db i = some offer) (hown : offer.userId = req)
    (hst : offer.status ≠ OfferStatus.pending) :
    cancelOffer db i req now = Except.error BotError.invalidState := by
  unfold cancelOffer; simp [h, hown, hst]

/-- `cancelOffer` by the owner on a `pending` offer writes `cancelled`. -/
theorem cancelOffer_ok (db : Database) (i : Nat) (req : Int) (now : Nat) (offer : Offer)
    (h : GetOffer db i = some offer) (hown : offer.userId = req)
    (hst : offer.status = OfferStatus.pending) :
    cancelOffer db i req now = Except.ok (updateRows db i OfferStatus.cancelled now) := by
  unfold cancelOffer; simp [h, hown, hst]

/-- A rejected `confirmPayment` leaves the store untouched. -/
theorem runConfirm_of_error (db : Database) (i : Nat) (req : Int) (now : Nat) (e : BotError)
    (h : confirmPayment db i req now = Except.error e) :
    runConfirm db i req now = db := by
  unfold runConfirm; rw [h]

/-- A rejected `cancelOffer` leaves the store untouched. -/
theorem runCancel_of_error (db : Database) (i : Nat) (req : Int) (now : Nat) (e : BotError)
    (h : cancelOffer db i req now = Except.error e) :
    runCancel db i req now = db := by
  unfold runCancel; rw [h]

/-- The stored status determines the status field of any offer `GetOffer`
returns for that id. -/
theorem offerStatus_of_GetOffer (db : Database) (i : Nat) (offer : Offer) (s : OfferStatus)
    (hg : GetOffer db i = some offer) (h : offerStatus db i = some s) :
    offer.status = s := by
  obtain ⟨r, hrf, hstat, -⟩ := GetOffer_of_find? db i offer hg
  unfold offerStatus at h
  rw [hrf] at h
  simp only [Option.map_some'] at h
  rw [hstat]
  exact Option.some.inj h

/-- A row found by id lookup carries that id. -/
theorem find?_id (l : List OfferRow) (i : Nat) (o : OfferRow)
    (hr : l.find? (fun o => o.id = i) = some o) : o.id = i := by
  have := List.find?_some hr
  simpa using this

/-- `refreshStatus` reduces to the reconciliation step on the row found for
the id. -/
theorem refreshStatus_found (db : Database) (i : Nat) (oracle : SettleOracle) (now : Nat)
    (o : OfferRow) (hr : db.offers.find? (fun o => o.id = i) = some o) :
    refreshStatus db i oracle now = reconcileRow oracle now db o := by
  unfold refreshStatus; rw [hr]

/-- `refreshStatus` on an id with no row is a no-op. -/
theorem refreshStatus_missing (db : Database) (i : Nat) (oracle : SettleOracle) (now : Nat)
    (hr : db.offers.find? (fun o => o.id = i) = none) :
    refreshStatus db i oracle now = db := by
  unfold refreshStatus; rw [hr]

/-- A terminal status (`completed` or `cancelled`) survives any single
lifecycle operation. -/
theorem applyOp_terminal (db : Database) (i : Nat) (op : LifeOp) (s : OfferStatus)
    (hs : s = OfferStatus.completed ∨ s = OfferStatus.cancelled)
    (h : offerStatus db i = some s) :
    offerStatus (applyOp i db op) i = some s := by
  have hsp : s ≠ OfferStatus.paid := by rcases hs with rfl | rfl <;> simp
  have hspend : s ≠ OfferStatus.pending := by rcases hs with rfl | rfl <;> simp
  cases op with
  | refresh oracle now =>
    simp only [applyOp]
    cases hr : db.offers.find? (fun o => o.id = i) with
    | none => rw [refreshStatus_missing db i oracle now hr]; exact h
    | some o =>
      have ho : o.status = s := by
        unfold offerStatus at h; rw [hr] at h
        simpa using h
      rw [refreshStatus_found db i oracle now o hr]
      unfold reconcileRow
      rw [ho, if_pos hs]
      exact h
  | confirm req now =>
    simp only [applyOp]
    cases hg : GetOffer db i with
    | none => rw [runConfirm_of_error db i req now _ (confirmPayment_none db i req now hg)]; exact h
    | some offer =>
      have ho : offer.status = s := offerStatus_of_GetOffer db i offer s hg h
      by_cases hown : offer.userId = req
      · have hne : offer.status ≠ OfferStatus.paid := by rw [ho]; exact hsp
        rw [runConfirm_of_error db i req now _
            (confirmPayment_invalid db i req now offer hg hown hne)]
        exact h
      · rw [runConfirm_of_error db i req now _
            (confirmPayment_unauth db i req now offer hg hown)]
        exact h
  | cancel req now =>
    simp only [applyOp]
    cases hg : GetOffer db i with
    | none => rw [runCancel_of_error db i req now _ (cancelOffer_none db i req now hg)]; exact h
    | some offer =>
      have ho : offer.status = s := offerStatus_of_GetOffer db i offer s hg h
      by_cases hown : offer.userId = req
      · have hne : offer.status ≠ OfferStatus.pending := by rw [ho]; exact hspend
        rw [runCancel_of_error db i req now _
            (cancelOffer_invalid db i req now offer hg hown hne)]
        exact h
      · rw [runCancel_of_error db i req now _
            (cancelOffer_unauth db i req now offer hg hown)]
        exact h

/-- One lifecycle operation takes a `pending` offer only to `pending`,
`paid`, or `cancelled` — never to `completed`. -/
theorem applyOp_pending (db : Database) (i : Nat) (op : LifeOp)
    (h : offerStatus db i = some OfferStatus.pending) :
    offerStatus (applyOp i db op) i = some OfferStatus.pending ∨
    offerStatus (applyOp i db op) i = some OfferStatus.paid ∨
    offerStatus (applyOp i db op) i = some OfferStatus.cancelled := by
  cases op with
  | refresh oracle now =>
    simp only [applyOp]
    cases hr : db.offers.find? (fun o => o.id = i) with
    | none => rw [refreshStatus_missing db i oracle now hr]; exact Or.inl h
    | some o =>
      have ho : o.status = OfferStatus.pending := by
        unfold offerStatus at h; rw [hr] at h
        simpa using h
      have hoi : o.id = i := find?_id db.offers i o hr
      rw [refreshStatus_found db i oracle now o hr]
      unfold reconcileRow
      rw [ho, if_neg (by simp), if_pos rfl]
      cases horacle : oracle o.invoiceID with
      | error e => exact Or.inl h
      | ok b =>
        cases b with
        | false => exact Or.inl h
        | true =>
          refine Or.inr (Or.inl ?_)
          show offerStatus (updateRows db o.id OfferStatus.paid now) i = some OfferStatus.paid
          rw [hoi, offerStatus_updateRows_self, h]
          rfl
  | confirm req now =>
    simp only [applyOp]
    cases hg : GetOffer db i with
    | none =>
      rw [runConfirm_of_error db i req now _ (confirmPayment_none db i req now hg)]
      exact Or.inl h
    | some offer =>
      have ho : offer.status = OfferStatus.pending :=
        offerStatus_of_GetOffer db i offer _ hg h
      by_cases hown : offer.userId = req
      · have hne : offer.status ≠ OfferStatus.paid := by rw [ho]; simp
        rw [runConfirm_of_error db i req now _
            (confirmPayment_invalid db i req now offer hg hown hne)]
        exact Or.inl h
      · rw [runConfirm_of_error db i req now _
            (confirmPayment_unauth db i req now offer hg hown)]
        exact Or.inl h
  | cancel req now =>
    simp only [applyOp]
    cases hg : GetOffer db i with
    | none =>
      rw [runCancel_of_error db i req now _ (cancelOffer_none db i req now hg)]
      exact Or.inl h
    | some offer =>
      have ho : offer.status = OfferStatus.pending :=
        offerStatus_of_GetOffer db i offer _ hg h
      by_cases hown : offer.userId = req
      · refine Or.inr (Or.inr ?_)
        have hok := cancelOffer_ok db i req now offer hg hown ho
        unfold runCancel
        rw [hok, offerStatus_updateRows_self, h]
        rfl
      · rw [runCancel_of_error db i req now _
            (cancelOffer_unauth db i req now offer hg hown)]
        exact Or.inl h

/-- A terminal status survives any sequence of lifecycle operations. -/
theorem foldl_terminal (i : Nat) (s : OfferStatus)
    (hs : s = OfferStatus.completed ∨ s = OfferStatus.cancelled) :
    ∀ (ops : List LifeOp) (db : Database), offerStatus db i = some s →
      offerStatus (ops.foldl (applyOp i) db) i = some s := by
  intro ops
  induction ops with
  | nil => intro db h; exact h
  | cons op ops ih =>
    intro db h
    exact ih (applyOp i db op) (applyOp_terminal db i op s hs h)

/-! ## Claim theorems -/

/-- C1 (code bug evidence): for the posted amount 0.29 BTC the float64
pipeline of `createOffer` (`ParseFloat`, float multiplication by `10^8`,
`int64` truncation) passes 28999999 satoshis to invoice issuance, while the
exact fixed-point conversion — multiply by `10^8` and truncate toward
zero — yields 29000000; the two disagree, so the conversion is not the
exact fixed-point result for all positive amounts. -/
theorem c1_sats_conversion_bug :
    goSatsPos 29 100 = 28999999 ∧ exactSatsPos 29 100 = 29000000 ∧
    goSatsPos 29 100 ≠ exactSatsPos 29 100 := by
  refine ⟨by decide, by decide, by decide⟩

/-- C10: registering an already-registered user id is a no-op on the stored
record — the call succeeds for any handle and leaves the whole users table,
hence the stored handle and registration timestamp, unchanged. -/
theorem c10_register_idempotent (db : Database) (uid : Int) (handle : String) (now : Nat)
    (h : UserExists db uid = true) :
    RegisterUser db uid handle now = db ∧
    (RegisterUser db uid handle now).users.find? (fun u => u.userId = uid)
      = db.users.find? (fun u => u.userId = uid) := by
  have hreg : RegisterUser db uid handle now = db := by
    unfold RegisterUser
    unfold UserExists at h
    rw [if_pos h]
  exact ⟨hreg, by rw [hreg]⟩

/-- C10 witness: re-registering user 1 with a different handle leaves the
store unchanged. -/
theorem c10_register_idempotent_witness :
    UserExists dbEmpty 1 = true ∧ RegisterUser dbEmpty 1 "zzz" 9 = dbEmpty :=
  ⟨by decide, (c10_register_idempotent dbEmpty 1 "zzz" 9 (by decide)).1⟩


/-- Mapping the conditional row update over a list with no matching id is
the identity. -/
theorem map_update_of_no_match (l : List OfferRow) (i : Nat) (st : OfferStatus) (now : Nat)
    (h : ∀ r ∈ l, ¬ (r.id = i)) :
    (l.map fun r => if r.id = i then { r with status := st, updatedAt := now } else r) = l := by
  induction l with
  | nil => rfl
  | cons a l ih =>
    simp only [List.map_cons, if_neg (h a (List.mem_cons_self a l))]
    rw [ih (fun r hr => h r (List.mem_cons_of_mem a hr))]

/-- `updateRows` is the identity when no row carries the id. -/
theorem updateRows_id_of_missing (db : Database) (i : Nat) (st : OfferStatus) (now : Nat)
    (h : db.offers.find? (fun o => o.id = i) = none) :
    updateRows db i st now = db := by
  have hall := List.find?_eq_none.mp h
  unfold updateRows
  rw [map_update_of_no_match db.offers i st now (fun r hr => by simpa using hall r hr)]

/-- Effect of `updateRows` on the stored update timestamp of the targeted
id. -/
theorem offerUpdatedAt_updateRows_self (db : Database) (i : Nat) (st : OfferStatus) (now : Nat) :
    offerUpdatedAt (updateRows db i st now) i = (offerUpdatedAt db i).map (fun _ => now) := by
  unfold offerUpdatedAt updateRows
  rw [find?_updateRows_self]
  cases db.offers.find? (fun o => o.id = i) <;> rfl

/-- C7 (amended): `UpdateOfferStatus` never fails.  On a present offer id
it unconditionally writes the given status and refreshes the update
timestamp while leaving every other id untouched; on an absent id it
succeeds and changes nothing (rather than failing with `NotFound`). -/
theorem c7_updateStatus_total (db : Database) (i : Nat) (st : OfferStatus) (now : Nat) :
    ∃ d, UpdateOfferStatus db i st now = Except.ok d ∧
      offerStatus d i = (offerStatus db i).map (fun _ => st) ∧
      offerUpdatedAt d i = (offerUpdatedAt db i).map (fun _ => now) ∧
      (∀ j, j ≠ i → offerStatus d j = offerStatus db j) ∧
      (db.offers.find? (fun o => o.id = i) = none → d = db) := by
  refine ⟨updateRows db i st now, rfl, offerStatus_updateRows_self db i st now,
    offerUpdatedAt_updateRows_self db i st now,
    fun j hj => offerStatus_updateRows_other db i j st now hj,
    fun h => updateRows_id_of_missing db i st now h⟩

/-- C7 witness: updating offer 1 of the one-pending-offer store writes the
status and timestamp and leaves the (absent) id 2 unchanged. -/
theorem c7_updateStatus_total_witness :
    ∃ d, UpdateOfferStatus dbPend 1 OfferStatus.paid 9 = Except.ok d ∧
      offerStatus d 1 = some OfferStatus.paid ∧
      offerUpdatedAt d 1 = some 9 ∧
      offerStatus d 2 = offerStatus dbPend 2 := by
  obtain ⟨d, h1, h2, h3, h4, -⟩ := c7_updateStatus_total dbPend 1 OfferStatus.paid 9
  exact ⟨d, h1, by rw [h2]; rfl, by rw [h3]; rfl, h4 2 (by decide)⟩

/-- C7 counterexample: on a store with no offer of id 1, `UpdateOfferStatus`
succeeds (returning the unchanged store) instead of failing with
`NotFound`, refuting the claimed failure on a missing offer. -/
theorem c7_counterexample :
    offerStatus dbEmpty 1 = none ∧
    UpdateOfferStatus dbEmpty 1 OfferStatus.paid 9 = Except.ok dbEmpty := by
  exact ⟨rfl, rfl⟩

/-- C3: over the lifecycle operations (list-driven reconciliation,
`confirmPayment`, `cancelOffer`), an offer never moves directly from
`pending` to `completed` in one step, and once `completed` or `cancelled`
no sequence of operations changes its status. -/
theorem c3_lifecycle_transitions (db : Database) (i : Nat) :
    (∀ op : LifeOp, offerStatus db i = some OfferStatus.pending →
        offerStatus (applyOp i db op) i ≠ some OfferStatus.completed)
  ∧ (∀ ops : List LifeOp, offerStatus db i = some OfferStatus.completed →
        offerStatus (ops.foldl (applyOp i) db) i = some OfferStatus.completed)
  ∧ (∀ ops : List LifeOp, offerStatus db i = some OfferStatus.cancelled →
        offerStatus (ops.foldl (applyOp i) db) i = some OfferStatus.cancelled) := by
  refine ⟨?_, ?_, ?_⟩
  · intro op h
    rcases applyOp_pending db i op h with h2 | h2 | h2 <;> rw [h2] <;> simp
  · intro ops h
    exact foldl_terminal i OfferStatus.completed (Or.inl rfl) ops db h
  · intro ops h
    exact foldl_terminal i OfferStatus.cancelled (Or.inr rfl) ops db h

/-- C3 witness: a settled-reporting refresh of a pending offer does not
complete it, and a completed offer survives a cancel-then-confirm
sequence. -/
theorem c3_lifecycle_transitions_witness :
    offerStatus dbPend 1 = some OfferStatus.pending ∧
    offerStatus (applyOp 1 dbPend (LifeOp.refresh oracleSettled 9)) 1
      ≠ some OfferStatus.completed ∧
    offerStatus dbDone 1 = some OfferStatus.completed ∧
    offerStatus ([LifeOp.cancel 1 9, LifeOp.confirm 1 9].foldl (applyOp 1) dbDone) 1
      = some OfferStatus.completed :=
  ⟨by decide,
   (c3_lifecycle_transitions dbPend 1).1 (LifeOp.refresh oracleSettled 9) (by decide),
   by decide,
   (c3_lifecycle_transitions dbDone 1).2.1 [LifeOp.cancel 1 9, LifeOp.confirm 1 9] (by decide)⟩

/-- C4: for an existing offer, `confirmPayment` rejects a non-owner with
`Unauthorized` and an owner request on a non-`paid` offer with
`InvalidState`, leaving the store unchanged in both cases; an owner request
on a `paid` offer succeeds and sets the status to `completed`. -/
theorem c4_confirmPayment_contract (db : Database) (i : Nat) (req : Int) (now : Nat)
    (offer : Offer) (hget : GetOffer db i = some offer) :
    (offer.userId ≠ req →
        confirmPayment db i req now = Except.error BotError.unauthorized ∧
        runConfirm db i req now = db)
  ∧ (offer.userId = req → offer.status ≠ OfferStatus.paid →
        confirmPayment db i req now = Except.error BotError.invalidState ∧
        runConfirm db i req now = db)
  ∧ (offer.userId = req → offer.status = OfferStatus.paid →
        confirmPayment db i req now = Except.ok (updateRows db i OfferStatus.completed now) ∧
        offerStatus (updateRows db i OfferStatus.completed now) i
          = some OfferStatus.completed) := by
  refine ⟨?_, ?_, ?_⟩
  · intro hown
    have hc := confirmPayment_unauth db i req now offer hget hown
    exact ⟨hc, runConfirm_of_error db i req now _ hc⟩
  · intro hown hst
    have hc := confirmPayment_invalid db i req now offer hget hown hst
    exact ⟨hc, runConfirm_of_error db i req now _ hc⟩
  · intro hown hst
    refine ⟨confirmPayment_ok db i req now offer hget hown hst, ?_⟩
    obtain ⟨r, hrf, -, -⟩ := GetOffer_of_find? db i offer hget
    rw [offerStatus_updateRows_self]
    unfold offerStatus
    rw [hrf]
    rfl

/-- C4 witness: on the paid offer of user 1, requester 2 is rejected as
unauthorized with the store unchanged, and the owner request completes the
offer. -/
theorem c4_confirmPayment_contract_witness :
    GetOffer dbPaid 1 = some (paidRow.withName "alice") ∧
    (paidRow.withName "alice").userId ≠ (2 : Int) ∧
    confirmPayment dbPaid 1 2 9 = Except.error BotError.unauthorized ∧
    runConfirm dbPaid 1 2 9 = dbPaid ∧
    confirmPayment dbPaid 1 1 9 = Except.ok (updateRows dbPaid 1 OfferStatus.completed 9) ∧
    offerStatus (updateRows dbPaid 1 OfferStatus.completed 9) 1 = some OfferStatus.completed := by
  have h2 := (c4_confirmPayment_contract dbPaid 1 2 9 (paidRow.withName "alice") rfl).1
    (by decide)
  have h1 := (c4_confirmPayment_contract dbPaid 1 1 9 (paidRow.withName "alice") rfl).2.2
    (by decide) (by decide)
  exact ⟨rfl, by decide, h2.1, h2.2, h1.1, h1.2⟩

/-- C5: for an existing offer, `cancelOffer` rejects a non-owner with
`Unauthorized` and an owner request on a non-`pending` offer with
`InvalidState`, leaving the store unchanged in both cases; an owner request
on a `pending` offer always succeeds and sets the status to `cancelled`. -/
theorem c5_cancelOffer_contract (db : Database) (i : Nat) (req : Int) (now : Nat)
    (offer : Offer) (hget : GetOffer db i = some offer) :
    (offer.userId ≠ req →
        cancelOffer db i req now = Except.error BotError.unauthorized ∧
        runCancel db i req now = db)
  ∧ (offer.userId = req → offer.status ≠ OfferStatus.pending →
        cancelOffer db i req now = Except.error BotError.invalidState ∧
        runCancel db i req now = db)
  ∧ (offer.userId = req → offer.status = OfferStatus.pending →
        cancelOffer db i req now = Except.ok (updateRows db i OfferStatus.cancelled now) ∧
        offerStatus (updateRows db i OfferStatus.cancelled now) i
          = some OfferStatus.cancelled) := by
  refine ⟨?_, ?_, ?_⟩
  · intro hown
    have hc := cancelOffer_unauth db i req now offer hget hown
    exact ⟨hc, runCancel_of_error db i req now _ hc⟩
  · intro hown hst
    have hc := cancelOffer_invalid db i req now offer hget hown hst
    exact ⟨hc, runCancel_of_error db i req now _ hc⟩
  · intro hown hst
    refine ⟨cancelOffer_ok db i req now offer hget hown hst, ?_⟩
    obtain ⟨r, hrf, -, -⟩ := GetOffer_of_find? db i offer hget
    rw [offerStatus_updateRows_self]
    unfold offerStatus
    rw [hrf]
    rfl

/-- C5 witness: on the pending offer of user 1, requester 2 is rejected as
unauthorized with the store unchanged, and the owner request cancels the
offer. -/
theorem c5_cancelOffer_contract_witness :
    GetOffer dbPend 1 = some (pendRow.withName "alice") ∧
    (pendRow.withName "alice").userId ≠ (2 : Int) ∧
    cancelOffer dbPend 1 2 9 = Except.error BotError.unauthorized ∧
    runCancel dbPend 1 2 9 = dbPend ∧
    cancelOffer dbPend 1 1 9 = Except.ok (updateRows dbPend 1 OfferStatus.cancelled 9) ∧
    offerStatus (updateRows dbPend 1 OfferStatus.cancelled 9) 1 = some OfferStatus.cancelled := by
  have h2 := (c5_cancelOffer_contract dbPend 1 2 9 (pendRow.withName "alice") rfl).1
    (by decide)
  have h1 := (c5_cancelOffer_contract dbPend 1 1 9 (pendRow.withName "alice") rfl).2.2
    (by decide) (by decide)
  exact ⟨rfl, by decide, h2.1, h2.2, h1.1, h1.2⟩

/-- C2 (amended): `showMarketplace` performs no settlement refresh and does
not touch the store; it surfaces exactly the fetched offers (the 20 most
recent) whose stored status is `pending`, and never surfaces one whose
stored status is anything else. -/
theorem c2_marketplace_pending_only (db : Database) (o : Offer) :
    (o ∈ showMarketplace db ↔ o ∈ GetAllOffers db 20 ∧ o.status = OfferStatus.pending) ∧
    (o.status ≠ OfferStatus.pending → o ∉ showMarketplace db) := by
  constructor
  · unfold showMarketplace
    rw [List.mem_filter]
    simp
  · intro hne hmem
    unfold showMarketplace at hmem
    rw [List.mem_filter] at hmem
    exact hne (by simpa using hmem.2)

/-- C2 witness: the paid offer of the one-paid-offer store is not surfaced
by the marketplace. -/
theorem c2_marketplace_pending_only_witness :
    (paidRow.withName "alice").status ≠ OfferStatus.pending ∧
    (paidRow.withName "alice") ∉ showMarketplace dbPaid :=
  ⟨by decide, (c2_marketplace_pending_only dbPaid (paidRow.withName "alice")).2 (by decide)⟩

/-- C2 counterexample: on a store holding one pending offer whose invoice
the backend reports settled, the refresh-then-filter listing the claim
describes returns no offers and moves the store to `paid`, but the code's
`showMarketplace` still surfaces the offer and leaves the store pending —
so `listMarketplace` does not perform `refreshStatus` before filtering. -/
theorem c2_counterexample :
    offerStatus dbPend 1 = some OfferStatus.pending ∧
    (showMarketplace dbPend).length = 1 ∧
    (listMarketplaceSpec dbPend oracleSettled 9).1.length = 0 ∧
    offerStatus (listMarketplaceSpec dbPend oracleSettled 9).2 1 = some OfferStatus.paid := by
  refine ⟨by decide, by decide, by decide, by decide⟩

/-- C6: offer creation is atomic with respect to persistence — a
non-positive amount or price is rejected before any invoice is requested
and leaves the store unchanged; a failed invoice issuance aborts with no
store write; and a row is persisted exactly when validation and issuance
both succeed. -/
theorem c6_createOffer_atomic (db : Database) (issue : IssueOracle) (sender : Int)
    (a p : ℚ) (now : Nat) :
    (a ≤ 0 ∨ p ≤ 0 →
        ((sellHandler db issue sender a p now).outcome = SellOutcome.invalidAmount ∨
         (sellHandler db issue sender a p now).outcome = SellOutcome.invalidPrice) ∧
        (sellHandler db issue sender a p now).db = db ∧
        (sellHandler db issue sender a p now).invoiceRequested = false)
  ∧ (∀ e, 0 < a → 0 < p → UserExists db sender = true →
        issue ((int64SatsPos a.num.natAbs a.den : Nat) : Int) = Except.error e →
        (sellHandler db issue sender a p now).outcome = SellOutcome.backendFailed ∧
        (sellHandler db issue sender a p now).db = db)
  ∧ (∀ q, 0 < a → 0 < p → UserExists db sender = true →
        issue ((int64SatsPos a.num.natAbs a.den : Nat) : Int) = Except.ok q →
        (sellHandler db issue sender a p now).outcome = SellOutcome.created ∧
        (sellHandler db issue sender a p now).db = CreateOffer db sender a p q.1 q.2 now)
  ∧ ((sellHandler db issue sender a p now).db ≠ db →
        (sellHandler db issue sender a p now).outcome = SellOutcome.created) := by
  by_cases ha : a ≤ 0
  · have hS : sellHandler db issue sender a p now = ⟨SellOutcome.invalidAmount, db, false⟩ := by
      unfold sellHandler; rw [if_pos ha]
    refine ⟨fun _ => ⟨Or.inl (by rw [hS]), by rw [hS], by rw [hS]⟩, ?_, ?_, ?_⟩
    · intro e ha2 _ _ _; exact absurd ha (not_le.mpr ha2)
    · intro q ha2 _ _ _; exact absurd ha (not_le.mpr ha2)
    · intro hne; exact absurd (by rw [hS] : (sellHandler db issue sender a p now).db = db) hne
  · by_cases hp : p ≤ 0
    · have hS : sellHandler db issue sender a p now = ⟨SellOutcome.invalidPrice, db, false⟩ := by
        unfold sellHandler; rw [if_neg ha, if_pos hp]
      refine ⟨fun _ => ⟨Or.inr (by rw [hS]), by rw [hS], by rw [hS]⟩, ?_, ?_, ?_⟩
      · intro e _ hp2 _ _; exact absurd hp (not_le.mpr hp2)
      · intro q _ hp2 _ _; exact absurd hp (not_le.mpr hp2)
      · intro hne; exact absurd (by rw [hS] : (sellHandler db issue sender a p now).db = db) hne
    · by_cases hu : UserExists db sender = true
      · cases hissue : issue ((int64SatsPos a.num.natAbs a.den : Nat) : Int) with
        | error e0 =>
          have hS : sellHandler db issue sender a p now
              = ⟨SellOutcome.backendFailed, db, true⟩ := by
            unfold sellHandler
            rw [if_neg ha, if_neg hp, if_neg (not_not_intro hu), hissue]
          refine ⟨fun h => ?_, fun e _ _ _ _ => ⟨by rw [hS], by rw [hS]⟩, ?_, ?_⟩
          · rcases h with h | h
            · exact absurd h ha
            · exact absurd h hp
          · intro q _ _ _ h
            exact absurd h (by simp)
          · intro hne
            exact absurd (by rw [hS] : (sellHandler db issue sender a p now).db = db) hne
        | ok pr =>
          have hS : sellHandler db issue sender a p now
              = ⟨SellOutcome.created, CreateOffer db sender a p pr.1 pr.2 now, true⟩ := by
            unfold sellHandler
            rw [if_neg ha, if_neg hp, if_neg (not_not_intro hu), hissue]
          refine ⟨fun h => ?_, ?_, ?_, fun _ => by rw [hS]⟩
          · rcases h with h | h
            · exact absurd h ha
            · exact absurd h hp
          · intro e _ _ _ h
            exact absurd h (by simp)
          · intro q _ _ _ h
            have hq : pr = q := by injection h
            subst hq
            exact ⟨by rw [hS], by rw [hS]⟩
      · have hS : sellHandler db issue sender a p now
            = ⟨SellOutcome.notRegistered, db, false⟩ := by
          unfold sellHandler; rw [if_neg ha, if_neg hp, if_pos hu]
        refine ⟨fun h => ?_, ?_, ?_, ?_⟩
        · rcases h with h | h
          · exact absurd h ha
          · exact absurd h hp
        · intro e _ _ hreg _; exact absurd hreg hu
        · intro q _ _ hreg _; exact absurd hreg hu
        · intro hne
          exact absurd (by rw [hS] : (sellHandler db issue sender a p now).db = db) hne

/-- C6 witness: a negative amount is rejected with no invoice request and
no store change, and a backend issuance failure aborts with the store
unchanged. -/
theorem c6_createOffer_atomic_witness :
    ((-1 : ℚ) ≤ 0 ∨ (100 : ℚ) ≤ 0) ∧
    ((sellHandler dbEmpty issueOk 1 (-1) 100 9).outcome = SellOutcome.invalidAmount ∨
     (sellHandler dbEmpty issueOk 1 (-1) 100 9).outcome = SellOutcome.invalidPrice) ∧
    (sellHandler dbEmpty issueOk 1 (-1) 100 9).db = dbEmpty ∧
    (sellHandler dbEmpty issueOk 1 (-1) 100 9).invoiceRequested = false ∧
    (sellHandler dbEmpty issueDown 1 1 1 9).outcome = SellOutcome.backendFailed ∧
    (sellHandler dbEmpty issueDown 1 1 1 9).db = dbEmpty := by
  have hneg : (-1 : ℚ) ≤ 0 := neg_nonpos.mpr zero_le_one
  have h1 := (c6_createOffer_atomic dbEmpty issueOk 1 (-1) 100 9).1 (Or.inl hneg)
  have h2 := (c6_createOffer_atomic dbEmpty issueDown 1 1 1 9).2.1 ()
    zero_lt_one zero_lt_one (by decide) rfl
  exact ⟨Or.inl hneg, h1.1, h1.2.1, h1.2.2, h2.1, h2.2⟩

/-- Lookup by a fresh id in an extended offers table finds exactly the
appended row. -/
theorem find?_append_fresh (l : List OfferRow) (x : OfferRow) (i : Nat)
    (hl : ∀ r ∈ l, ¬ (r.id = i)) (hx : x.id = i) :
    (l ++ [x]).find? (fun o => o.id = i) = some x := by
  induction l with
  | nil => simp [List.find?_cons, hx]
  | cons a l ih =>
    have ha := hl a (List.mem_cons_self a l)
    rw [List.cons_append, List.find?_cons, decide_eq_false ha]
    exact ih (fun r hr => hl r (List.mem_cons_of_mem a hr))

/-- `GetOffer` computed from the two underlying lookups. -/
theorem GetOffer_of_finds (db : Database) (i : Nat) (r : OfferRow) (u : UserRow)
    (hr : db.offers.find? (fun o => o.id = i) = some r)
    (hu : db.users.find? (fun x => x.userId = r.userId) = some u) :
    GetOffer db i = some (r.withName u.username) := by
  rw [GetOffer_eq, hr, Option.some_bind, hu, Option.some_bind]

/-- C8: for a registered owner and positive terms, `CreateOffer` followed
immediately by `GetOffer` on the new autoincrement id returns an offer in
status `pending` carrying exactly the amount and price that were provided
(and the owner and fresh timestamps). -/
theorem c8_create_get_roundtrip (db : Database) (uid : Int) (a p : ℚ)
    (invId invLink : String) (now : Nat)
    (hreg : UserExists db uid = true)
    (hfresh : ∀ r ∈ db.offers, r.id < db.nextId)
    (_hposA : 0 < a) (_hposP : 0 < p) :
    ∃ o, GetOffer (CreateOffer db uid a p invId invLink now) db.nextId = some o ∧
      o.status = OfferStatus.pending ∧ o.amountBTC = a ∧ o.priceUSD = p ∧
      o.userId = uid ∧ o.createdAt = now ∧ o.updatedAt = now := by
  obtain ⟨u, hu⟩ : ∃ u, db.users.find? (fun x => x.userId = uid) = some u := by
    apply Option.isSome_iff_exists.mp
    apply List.find?_isSome.mpr
    unfold UserExists at hreg
    exact List.any_eq_true.mp hreg
  have hfind : (CreateOffer db uid a p invId invLink now).offers.find?
      (fun o => o.id = db.nextId)
      = some ⟨db.nextId, uid, a, p, invId, invLink, OfferStatus.pending, now, now⟩ := by
    apply find?_append_fresh
    · intro r hr
      exact Nat.ne_of_lt (hfresh r hr)
    · rfl
  have hu2 : (CreateOffer db uid a p invId invLink now).users.find?
      (fun x => x.userId =
        (⟨db.nextId, uid, a, p, invId, invLink, OfferStatus.pending, now, now⟩
          : OfferRow).userId)
      = some u := hu
  exact ⟨_, GetOffer_of_finds (CreateOffer db uid a p invId invLink now) db.nextId
    ⟨db.nextId, uid, a, p, invId, invLink, OfferStatus.pending, now, now⟩ u hfind hu2,
    rfl, rfl, rfl, rfl, rfl, rfl⟩

/-- C8 witness: creating a one-bitcoin offer for registered user 1 in the
empty store and reading it back yields a pending offer with the given
terms. -/
theorem c8_create_get_roundtrip_witness :
    UserExists dbEmpty 1 = true ∧ (0 : ℚ) < 1 ∧
    ∃ o, GetOffer (CreateOffer dbEmpty 1 1 1 "inv1" "link1" 9) dbEmpty.nextId = some o ∧
      o.status = OfferStatus.pending ∧ o.amountBTC = 1 ∧ o.priceUSD = 1 := by
  refine ⟨by decide, zero_lt_one, ?_⟩
  obtain ⟨o, h1, h2, h3, h4, -⟩ := c8_create_get_roundtrip dbEmpty 1 1 1 "inv1" "link1" 9
    (by decide) (by decide) zero_lt_one zero_lt_one
  exact ⟨o, h1, h2, h3, h4⟩

/-- When every fetched row carrying the watched id is pending with a
failing settlement check, the reconciliation pass of `listOffers` leaves
the stored status of that id unchanged. -/
theorem fold_reconcile_preserves (oracle : SettleOracle) (now : Nat) (l : List OfferRow)
    (i : Nat) :
    ∀ db : Database,
      (∀ r ∈ l, r.id = i →
          r.status = OfferStatus.pending ∧ oracle r.invoiceID = Except.error ()) →
      offerStatus (l.foldl (reconcileRow oracle now) db) i = offerStatus db i := by
  induction l with
  | nil => intro db _; rfl
  | cons r l ih =>
    intro db hall
    rw [List.foldl_cons,
      ih (reconcileRow oracle now db r) (fun x hx => hall x (List.mem_cons_of_mem r hx))]
    by_cases hri : r.id = i
    · obtain ⟨hstp, hore⟩ := hall r (List.mem_cons_self r l) hri
      unfold reconcileRow
      rw [hstp, if_neg (by simp), if_pos rfl, hore]
    · unfold reconcileRow
      by_cases h1 : r.status = OfferStatus.completed ∨ r.status = OfferStatus.cancelled
      · rw [if_pos h1]
      · rw [if_neg h1]
        by_cases h2 : r.status = OfferStatus.pending
        · rw [if_pos h2]
          cases horacle : oracle r.invoiceID with
          | error e => rfl
          | ok b =>
            cases b with
            | false => rfl
            | true =>
              show offerStatus (updateRows db r.id OfferStatus.paid now) i = offerStatus db i
              exact offerStatus_updateRows_other db r.id i OfferStatus.paid now
                (fun hc => hri hc.symm)
        · rw [if_neg h2]

/-- In a table with pairwise distinct ids, lookup by the id of a member row
finds that row. -/
theorem find?_of_mem_nodup (l : List OfferRow) (o : OfferRow)
    (hnodup : (l.map OfferRow.id).Nodup) (hmem : o ∈ l) :
    l.find? (fun r => r.id = o.id) = some o := by
  induction l with
  | nil => cases hmem
  | cons a l ih =>
    rcases List.mem_cons.mp hmem with rfl | hmem2
    · simp [List.find?_cons]
    · by_cases hai : a.id = o.id
      · have hao : a = o := List.inj_on_of_nodup_map hnodup (List.mem_cons_self a l)
          (List.mem_cons_of_mem a hmem2) hai
        rw [hao]
        simp [List.find?_cons]
      · have hnd2 : (l.map OfferRow.id).Nodup := by
          rw [List.map_cons, List.nodup_cons] at hnodup
          exact hnodup.2
        rw [List.find?_cons, decide_eq_false hai]
        exact ih hnd2 hmem2

/-- C9: when the settlement check for a pending offer fails, the
reconciliation performed while listing that owner's offers leaves the
stored status `pending` (neither advanced nor regressed), and the listing
still returns successfully rather than surfacing the failure. -/
theorem c9_reconcile_soft_failure (db : Database) (uid : Int) (oracle : SettleOracle)
    (now : Nat) (o : OfferRow)
    (hnodup : (db.offers.map OfferRow.id).Nodup)
    (hmem : o ∈ db.offers) (_huid : o.userId = uid)
    (hst : o.status = OfferStatus.pending)
    (horacle : oracle o.invoiceID = Except.error ()) :
    ∃ d, listOffers db uid oracle now = Except.ok d ∧
      offerStatus d o.id = some OfferStatus.pending ∧
      offerStatus d o.id = offerStatus db o.id := by
  have hall : ∀ r ∈ GetUserOffers db uid, r.id = o.id →
      r.status = OfferStatus.pending ∧ oracle r.invoiceID = Except.error () := by
    intro r hr hid
    have hrdb : r ∈ db.offers :=
      (List.mem_filter.mp ((List.mem_insertionSort moreRecent).mp hr)).1
    have hro : r = o := List.inj_on_of_nodup_map hnodup hrdb hmem hid
    rw [hro]
    exact ⟨hst, horacle⟩
  have hpres := fold_reconcile_preserves oracle now (GetUserOffers db uid) o.id db hall
  refine ⟨_, rfl, ?_, hpres⟩
  rw [hpres]
  unfold offerStatus
  rw [find?_of_mem_nodup db.offers o hnodup hmem, Option.map_some', hst]

/-- C9 witness: with the settlement backend down, listing the owner of the
single pending offer succeeds and the offer stays pending. -/
theorem c9_reconcile_soft_failure_witness :
    pendRow.status = OfferStatus.pending ∧
    oracleDown pendRow.invoiceID = Except.error () ∧
    ∃ d, listOffers dbPend 1 oracleDown 9 = Except.ok d ∧
      offerStatus d pendRow.id = some OfferStatus.pending := by
  refine ⟨rfl, rfl, ?_⟩
  obtain ⟨d, h1, h2, -⟩ := c9_reconcile_soft_failure dbPend 1 oracleDown 9 pendRow
    (by decide) (List.mem_singleton_self pendRow) rfl rfl rfl
  exact ⟨d, h1, h2⟩
